import Mathlib

/-!
Verification development for the edge-rendering SDF pipeline in src/sdf.ts.

The shader code (GLSL strings inside sdf.ts) is shallowly embedded here.
GLSL highp floats are modelled by exact arithmetic: vector components are
rationals, and the GLSL length function is modelled by Real.sqrt applied to
the (rational) self dot product.  Definitions that mention Real.sqrt are
necessarily noncomputable; every branch condition and all vector algebra
stay inside the rationals and remain decidable.
-/

/-- Model of GLSL vec3: three rational components. -/
abbrev Vec3 : Type := ℚ × ℚ × ℚ

/-- Componentwise subtraction of vec3 values. -/
def vsub (u v : Vec3) : Vec3 := (u.1 - v.1, u.2.1 - v.2.1, u.2.2 - v.2.2)

/-- Componentwise addition of vec3 values. -/
def vadd (u v : Vec3) : Vec3 := (u.1 + v.1, u.2.1 + v.2.1, u.2.2 + v.2.2)

/-- Scalar multiplication of a vec3 value. -/
def smul (c : ℚ) (v : Vec3) : Vec3 := (c * v.1, c * v.2.1, c * v.2.2)

/-- GLSL dot product on vec3. -/
def dot (u v : Vec3) : ℚ := u.1 * v.1 + u.2.1 * v.2.1 + u.2.2 * v.2.2

/-- GLSL cross product on vec3. -/
def cross (u v : Vec3) : Vec3 :=
  (u.2.1 * v.2.2 - u.2.2 * v.2.1,
   u.2.2 * v.1 - u.1 * v.2.2,
   u.1 * v.2.1 - u.2.1 * v.1)

/-- GLSL clamp on floats: clamp(x, lo, hi) = min(max(x, lo), hi). -/
def clampG (x lo hi : ℚ) : ℚ := min (max x lo) hi

/-- GLSL length of a vec3, the square root of the self dot product. -/
noncomputable def lengthR (v : Vec3) : ℝ := Real.sqrt ((dot v v : ℚ) : ℝ)

/-- Projection parameter before clamping, from signedDistanceToSegment in
directEdgeFragmentShader (sdf.ts line 270; the identical copy in
sdfGenFragmentShader is at line 387): t = dot(p - a, ab) / dot(ab, ab). -/
def tRaw (p a b : Vec3) : ℚ :=
  dot (vsub p a) (vsub b a) / dot (vsub b a) (vsub b a)

/-- Clamped projection parameter: t = clamp(t, 0.0, 1.0) (sdf.ts line 271). -/
def tClamped (p a b : Vec3) : ℚ := clampG (tRaw p a b) 0 1

/-- Clamped projection point: projection = a + t * ab (sdf.ts line 272). -/
def projPoint (p a b : Vec3) : Vec3 :=
  vadd a (smul (tClamped p a b) (vsub b a))

/-- Side indicator from signedDistanceToSegment (sdf.ts lines 277-279):
normal = cross(ab, p - a); sign = dot(normal, normal) > 0.0 ? 1.0 : -1.0. -/
def sdtsSign (p a b : Vec3) : ℚ :=
  if 0 < dot (cross (vsub b a) (vsub p a)) (cross (vsub b a) (vsub p a))
  then 1 else -1

/-- Embedding of signedDistanceToSegment (sdf.ts lines 268-282; the copy in
sdfGenFragmentShader at lines 385-399 is textually identical):
d = length(p - projection); return d * sign. -/
noncomputable def signedDistanceToSegment (p a b : Vec3) : ℝ :=
  lengthR (vsub p (projPoint p a b)) * ((sdtsSign p a b : ℚ) : ℝ)

/-- Guarded variant of signedDistanceToSegment: GLSL floating-point division
is undefined (NaN) when the denominator dot(ab, ab) is zero, which happens
exactly for a degenerate segment.  The guarded form returns none in that
case and the regular value otherwise. -/
noncomputable def signedDistanceToSegmentChecked (p a b : Vec3) : Option ℝ :=
  if dot (vsub b a) (vsub b a) = 0 then none
  else some (signedDistanceToSegment p a b)

/-- Model of a stored segment: a pair of endpoints (Segment Store texel pair
2i, 2i+1). -/
abbrev Seg : Type := Vec3 × Vec3

/-- Texture fetch of segment i from the 1 x 2N edge texture with nearest
sampling and clamp addressing; for indices inside the list this is exactly
element i. -/
def segAt (segs : List Seg) (i : ℕ) : Seg := segs.getD i ((0, 0, 0), (0, 0, 0))

/-- Indices visited by the aggregation loop
for (int i = 0; i < 336; i++) { if (i >= numEdges) break; ... }
(sdf.ts lines 288-289 and 404-405, with numEdges = segs.length as set by the
host via setInt): the break condition is monotone in i, so the loop visits
exactly the indices below min 336 numEdges, in order. -/
def loopSegs (segs : List Seg) : List Seg :=
  (List.range (min 336 segs.length)).map (segAt segs)

/-- Aggregation of the Direct Evaluator fragment stage (directEdgeFragmentShader
main, sdf.ts lines 284-302): minDist starts at 1000.0 and each iteration sets
minDist = min(minDist, abs(dist)). -/
noncomputable def directEdgeMinDist (p : Vec3) (segs : List Seg) : ℝ :=
  (loopSegs segs).foldl
    (fun minDist s => min minDist |signedDistanceToSegment p s.1 s.2|) 1000

/-- Aggregation of the SDF baker fragment stage (sdfGenFragmentShader main,
sdf.ts lines 401-421): identical loop body, but minDist starts at 10000.0. -/
noncomputable def sdfGenMinDist (p : Vec3) (segs : List Seg) : ℝ :=
  (loopSegs segs).foldl
    (fun minDist s => min minDist |signedDistanceToSegment p s.1 s.2|) 10000

/-- One aggregation step in the guarded semantics: an undefined per-segment
distance poisons the accumulated minimum. -/
noncomputable def minStepChecked (p : Vec3) (acc : Option ℝ) (s : Seg) : Option ℝ :=
  match acc, signedDistanceToSegmentChecked p s.1 s.2 with
  | some m, some d => some (min m |d|)
  | _, _ => none

/-- Guarded Direct Evaluator aggregation: the loop of lines 284-302 run in the
semantics where a zero denominator is undefined. -/
noncomputable def directEdgeMinDistChecked (p : Vec3) (segs : List Seg) : Option ℝ :=
  (loopSegs segs).foldl (minStepChecked p) (some 1000)

/-- Guarded SDF baker aggregation: the loop of lines 401-421 run in the
semantics where a zero denominator is undefined. -/
noncomputable def sdfGenMinDistChecked (p : Vec3) (segs : List Seg) : Option ℝ :=
  (loopSegs segs).foldl (minStepChecked p) (some 10000)

/-- Mathematical minimum of a list of reals, valued in WithTop so that the
empty list has minimum top.  This is the specification-side notion used to
compare against the aggregation loops. -/
noncomputable def listMin (l : List ℝ) : WithTop ℝ :=
  l.foldr (fun x r => min (x : WithTop ℝ) r) ⊤

/-- Per-segment absolute distances of a point against a segment list, the
N individual distances the spec aggregates. -/
noncomputable def distanceList (p : Vec3) (segs : List Seg) : List ℝ :=
  segs.map (fun s => |signedDistanceToSegment p s.1 s.2|)

/-- GLSL smoothstep: t = clamp((x - e0)/(e1 - e0), 0, 1); t*t*(3 - 2*t). -/
def smoothstep (e0 e1 x : ℚ) : ℚ :=
  (clampG ((x - e0) / (e1 - e0)) 0 1) * (clampG ((x - e0) / (e1 - e0)) 0 1) *
    (3 - 2 * (clampG ((x - e0) / (e1 - e0)) 0 1))

/-- Edge intensity of the Direct Evaluator (sdf.ts lines 305-306):
edge = 1.0 - smoothstep(edgeWidth - pixelWidth, edgeWidth + pixelWidth, minDist),
where pixelWidth = fwidth(minDist) is a screen-space derivative, taken here as
a parameter. -/
def directEdgeIntensity (edgeWidth pixelWidth minDist : ℚ) : ℚ :=
  1 - smoothstep (edgeWidth - pixelWidth) (edgeWidth + pixelWidth) minDist

/-- Smooth transition of the lookup material (sdf.ts lines 646-648):
smoothTransition = smoothstep(0.3 - aa, 0.3 + aa, distance).  The shader
declares and receives the edgeWidth uniform but its body uses the literal
0.3; the uniform is therefore an unused parameter here, mirroring the
source. -/
def lookupSmoothTransition (edgeWidth aa distance : ℚ) : ℚ :=
  smoothstep (0.3 - aa) (0.3 + aa) distance

/-- Model of GLSL vec4 texels sampled from the SDF texture. -/
structure Vec4 where
  r : ℚ
  g : ℚ
  b : ℚ
  a : ℚ
deriving DecidableEq

/-- Model of GLSL vec2 UV coordinates. -/
abbrev Vec2 : Type := ℚ × ℚ

/-- Componentwise addition of vec2 values. -/
def add2 (u v : Vec2) : Vec2 := (u.1 + v.1, u.2 + v.2)

/-- Scalar multiplication of a vec2 value. -/
def smul2 (c : ℚ) (v : Vec2) : Vec2 := (c * v.1, c * v.2)

/-- Texel size used by the lookup shader: vec2(1. / 4096.) (sdf.ts line 579),
modelled by its scalar since both components agree. -/
def texSize : ℚ := 1 / 4096

/-- Neighbour offsets searched by the lookup shader (sdf.ts lines 587-592). -/
def neighbourOffsets : List Vec2 := [(-1, 0), (1, 0), (0, -1), (0, 1)]

/-- Embedding of fixDiscontinuities (lookupEdgeFragmentShader, sdf.ts lines
555-574).  The shader computes slope = edgeColor.rgb - innerColor.rgb and
finalColor = edgeColor.rgb + slope * 4.0 but never uses either value; the
returned texel depends only on edgeColor and the branch condition.  The
texture is modelled as a function from UV coordinates to texels. -/
def fixDiscontinuities (tex : Vec2 → Vec4) (uv1 uv2 : Vec2) : Vec4 :=
  let edgeColor := tex uv1
  let innerColor := tex uv2
  let rDiff := edgeColor.r - innerColor.r
  if (0.15 < rDiff ∨ 0.01 < edgeColor.b) ∧ 0.2 < edgeColor.r
  then { r := edgeColor.r, g := 0, b := 0, a := 1 }
  else edgeColor

/-- Red channel of the linear extrapolation that fixDiscontinuities computes
into its finalColor local and then abandons (sdf.ts lines 560-561):
edgeColor.r + (edgeColor.r - innerColor.r) * 4.0, the corrected value the
spec describes as value_far + (value_far - value_near) * k with k = 4. -/
def extrapolatedCorrection (tex : Vec2 → Vec4) (uv1 uv2 : Vec2) : ℚ :=
  (tex uv1).r + ((tex uv1).r - (tex uv2).r) * 4

/-- Neighbour selection loop of the lookup shader main (sdf.ts lines 599-617):
starting from ma = vec4(0) and minUVOffset = vec2(-1), visit the four offsets
in order, skip neighbours with blue channel above 0.1, and keep the neighbour
with the largest red channel together with its offset. -/
def selectNeighbour (tex : Vec2 → Vec4) (uv : Vec2) : Vec4 × Vec2 :=
  neighbourOffsets.foldl
    (fun state off =>
      let neighbourData := tex (add2 uv (smul2 texSize off))
      if 0.1 < neighbourData.b then state
      else if state.1.r < neighbourData.r then (neighbourData, off)
      else state)
    ({ r := 0, g := 0, b := 0, a := 0 }, (-1, -1))

/-- Texel value the lookup shader main uses after seam repair (sdf.ts lines
582-641): background texels (blue channel nonzero) are replaced by the result
of fixDiscontinuities along the selected neighbour offset, with a second
fixDiscontinuities step when the first result still has positive blue. -/
def lookupEdgeData (tex : Vec2 → Vec4) (uv : Vec2) : Vec4 :=
  let edgeData := tex uv
  if edgeData.b ≠ 0 then
    let sel := selectNeighbour tex uv
    let minUVOffset := sel.2
    let finalColor := fixDiscontinuities tex
      (add2 uv (smul2 texSize minUVOffset))
      (add2 uv (smul2 (texSize * 0.25) minUVOffset))
    if 0 < finalColor.b then
      let finalColor1 := fixDiscontinuities tex
        (add2 uv (smul2 (texSize * 0.25) minUVOffset))
        (add2 uv (smul2 (texSize * 0.75) minUVOffset))
      { r := finalColor1.r, g := 0, b := 0, a := 1 }
    else finalColor
  else edgeData

/-- Scalar distance the lookup shader thresholds: distance = edgeData.r after
the seam-repair block (sdf.ts line 644). -/
def lookupDistance (tex : Vec2 → Vec4) (uv : Vec2) : ℚ :=
  (lookupEdgeData tex uv).r

/-- Concrete all-interior texture used as a witness input: every texel has a
zero blue channel and red channel 0.7. -/
def texInterior : Vec2 → Vec4 := fun _ => { r := 0.7, g := 0, b := 0, a := 1 }

/-- Concrete seam texture used as a failing input: the texel at UV (1/2, 1/2)
is background (blue 1, red 0.5); its right neighbour one texel away is valid
with red 0.9; the quarter-step sample in the same direction has red 0.8; all
other texels are background with red 0. -/
def texSeam : Vec2 → Vec4 := fun uv =>
  if uv = (1 / 2 + 1 / 4096, 1 / 2) then { r := 0.9, g := 0, b := 0, a := 1 }
  else if uv = (1 / 2 + 1 / 16384, 1 / 2) then { r := 0.8, g := 0, b := 0, a := 1 }
  else if uv = (1 / 2, 1 / 2) then { r := 0.5, g := 0, b := 1, a := 1 }
  else { r := 0, g := 0, b := 1, a := 1 }

/-- Concrete segment list with 337 entries, one more than the loop cap. -/
def segsRep : List Seg := List.replicate 337 (((0, 0, 0) : Vec3), ((1, 0, 0) : Vec3))

/-! Helper lemmas about the vector algebra and the aggregation folds. -/

lemma vsub_eq_zero_iff (u v : Vec3) : vsub u v = (0, 0, 0) ↔ u = v := by
  obtain ⟨a, b, c⟩ := u
  obtain ⟨d, e, f⟩ := v
  simp [vsub, Prod.ext_iff, sub_eq_zero]

lemma dot_self_nonneg (v : Vec3) : 0 ≤ dot v v := by
  obtain ⟨x, y, z⟩ := v
  simp only [dot]
  nlinarith [mul_self_nonneg x, mul_self_nonneg y, mul_self_nonneg z]

lemma dot_self_eq_zero_iff (v : Vec3) : dot v v = 0 ↔ v = (0, 0, 0) := by
  obtain ⟨x, y, z⟩ := v
  simp only [dot, Prod.ext_iff]
  constructor
  · intro h
    have hx : x * x = 0 := le_antisymm
      (by nlinarith [mul_self_nonneg y, mul_self_nonneg z]) (mul_self_nonneg x)
    have hy : y * y = 0 := le_antisymm
      (by nlinarith [mul_self_nonneg x, mul_self_nonneg z]) (mul_self_nonneg y)
    have hz : z * z = 0 := le_antisymm
      (by nlinarith [mul_self_nonneg x, mul_self_nonneg y]) (mul_self_nonneg z)
    exact ⟨mul_self_eq_zero.mp hx, mul_self_eq_zero.mp hy, mul_self_eq_zero.mp hz⟩
  · rintro ⟨rfl, rfl, rfl⟩
    ring

lemma lengthR_nonneg (v : Vec3) : 0 ≤ lengthR v := Real.sqrt_nonneg _

lemma sdtsSign_eq_one_or (p a b : Vec3) :
    sdtsSign p a b = 1 ∨ sdtsSign p a b = -1 := by
  unfold sdtsSign
  split <;> simp

lemma sdtsSign_of_cross_ne (p a b : Vec3)
    (h : cross (vsub b a) (vsub p a) ≠ (0, 0, 0)) : sdtsSign p a b = 1 := by
  unfold sdtsSign
  rw [if_pos]
  exact lt_of_le_of_ne (dot_self_nonneg _)
    (fun h0 => h ((dot_self_eq_zero_iff _).mp h0.symm))

lemma sdtsSign_of_cross_eq (p a b : Vec3)
    (h : cross (vsub b a) (vsub p a) = (0, 0, 0)) : sdtsSign p a b = -1 := by
  unfold sdtsSign
  rw [if_neg]
  rw [h]
  norm_num [dot]

lemma abs_cast_sdtsSign (p a b : Vec3) : |((sdtsSign p a b : ℚ) : ℝ)| = 1 := by
  rcases sdtsSign_eq_one_or p a b with h | h <;> rw [h] <;> norm_num

lemma abs_signedDistanceToSegment (p a b : Vec3) :
    |signedDistanceToSegment p a b| = lengthR (vsub p (projPoint p a b)) := by
  unfold signedDistanceToSegment
  rw [abs_mul, abs_cast_sdtsSign, mul_one, abs_of_nonneg (lengthR_nonneg _)]

lemma tClamped_eq_tRaw (p a b : Vec3) (h0 : 0 < tClamped p a b)
    (h1 : tClamped p a b < 1) : tClamped p a b = tRaw p a b := by
  unfold tClamped clampG at *
  rcases le_total (tRaw p a b) 0 with h | h
  · rw [max_eq_right h, min_eq_left (by norm_num : (0 : ℚ) ≤ 1)] at h0
    exact absurd h0 (lt_irrefl 0)
  · rw [max_eq_left h] at h1 ⊢
    rcases le_total 1 (tRaw p a b) with h2 | h2
    · rw [min_eq_right h2] at h1
      exact absurd h1 (lt_irrefl 1)
    · rw [min_eq_left h2]

lemma dot_vsub_self_ne_zero (a b : Vec3) (hab : a ≠ b) :
    dot (vsub b a) (vsub b a) ≠ 0 :=
  fun h => hab (((vsub_eq_zero_iff b a).mp ((dot_self_eq_zero_iff _).mp h)).symm)

lemma perp_of_interior (p a b : Vec3) (hab : a ≠ b) (h0 : 0 < tClamped p a b)
    (h1 : tClamped p a b < 1) :
    dot (vsub p (projPoint p a b)) (vsub b a) = 0 := by
  have ht := tClamped_eq_tRaw p a b h0 h1
  have hd := dot_vsub_self_ne_zero a b hab
  unfold projPoint
  rw [ht]
  unfold tRaw at *
  obtain ⟨p1, p2, p3⟩ := p
  obtain ⟨a1, a2, a3⟩ := a
  obtain ⟨b1, b2, b3⟩ := b
  simp only [dot, vsub, vadd, smul] at hd ⊢
  field_simp
  ring

lemma projPoint_of_tZero (p a b : Vec3) (h : tClamped p a b = 0) :
    projPoint p a b = a := by
  unfold projPoint
  rw [h]
  obtain ⟨a1, a2, a3⟩ := a
  obtain ⟨b1, b2, b3⟩ := b
  simp [vadd, smul]

lemma projPoint_of_tOne (p a b : Vec3) (h : tClamped p a b = 1) :
    projPoint p a b = b := by
  unfold projPoint
  rw [h]
  obtain ⟨a1, a2, a3⟩ := a
  obtain ⟨b1, b2, b3⟩ := b
  simp only [vadd, smul, vsub, Prod.ext_iff]
  exact ⟨by ring, by ring, by ring⟩

lemma loopSegs_eq_take (segs : List Seg) : loopSegs segs = segs.take 336 := by
  unfold loopSegs
  apply List.ext_getElem
  · simp [List.length_take]
  · intro n h1 h2
    simp only [List.getElem_map, List.getElem_range, List.getElem_take]
    have hn : n < segs.length := by
      simp only [List.length_map, List.length_range, lt_min_iff] at h1
      exact h1.2
    unfold segAt
    exact List.getD_eq_getElem segs _ hn

lemma listMin_cons (x : ℝ) (t : List ℝ) :
    listMin (x :: t) = min (x : WithTop ℝ) (listMin t) := rfl

lemma coe_foldl_min (l : List ℝ) (a : ℝ) :
    ((l.foldl min a : ℝ) : WithTop ℝ) = min (a : WithTop ℝ) (listMin l) := by
  induction l generalizing a with
  | nil => simp [listMin]
  | cons x t ih =>
    rw [List.foldl_cons, ih (min a x), listMin_cons, WithTop.coe_min, min_assoc]

lemma listMin_le_of_mem {x : ℝ} {l : List ℝ} (h : x ∈ l) :
    listMin l ≤ (x : WithTop ℝ) := by
  induction l with
  | nil => cases h
  | cons y t ih =>
    rcases List.mem_cons.mp h with rfl | h2
    · rw [listMin_cons]
      exact min_le_left _ _
    · rw [listMin_cons]
      exact le_trans (min_le_right _ _) (ih h2)

lemma listMin_perm {l1 l2 : List ℝ} (h : l1.Perm l2) : listMin l1 = listMin l2 := by
  induction h with
  | nil => rfl
  | cons x h ih => rw [listMin_cons, listMin_cons, ih]
  | swap x y t =>
    rw [listMin_cons, listMin_cons, listMin_cons, listMin_cons,
      ← min_assoc, min_comm (y : WithTop ℝ) (x : WithTop ℝ), min_assoc]
  | trans h1 h2 ih1 ih2 => rw [ih1, ih2]

lemma foldl_min_eq_listMin (l : List ℝ) (c x : ℝ) (hx : x ∈ l) (hxc : x ≤ c) :
    ((l.foldl min c : ℝ) : WithTop ℝ) = listMin l := by
  rw [coe_foldl_min]
  exact min_eq_right (le_trans (listMin_le_of_mem hx) (by exact_mod_cast hxc))

lemma sdtsChecked_none (p a b : Vec3) (h : a = b) :
    signedDistanceToSegmentChecked p a b = none := by
  unfold signedDistanceToSegmentChecked
  rw [if_pos]
  rw [(vsub_eq_zero_iff b a).mpr h.symm]
  norm_num [dot]

lemma sdtsChecked_some (p a b : Vec3) (h : a ≠ b) :
    signedDistanceToSegmentChecked p a b = some (signedDistanceToSegment p a b) := by
  unfold signedDistanceToSegmentChecked
  rw [if_neg (dot_vsub_self_ne_zero a b h)]

lemma foldl_minStepChecked_none (p : Vec3) (l : List Seg) :
    l.foldl (minStepChecked p) none = none := by
  induction l with
  | nil => rfl
  | cons s t ih => simpa [minStepChecked] using ih

lemma foldl_minStepChecked_ok (p : Vec3) (l : List Seg)
    (hl : ∀ s ∈ l, s.1 ≠ s.2) (c : ℝ) :
    l.foldl (minStepChecked p) (some c) =
      some (l.foldl (fun m s => min m |signedDistanceToSegment p s.1 s.2|) c) := by
  induction l generalizing c with
  | nil => rfl
  | cons s t ih =>
    have hs : s.1 ≠ s.2 := hl s (List.mem_cons_self s t)
    simp only [List.foldl_cons, minStepChecked, sdtsChecked_some p s.1 s.2 hs]
    exact ih (fun x hx => hl x (List.mem_cons_of_mem _ hx)) _

lemma foldl_minStepChecked_degenerate (p : Vec3) (l : List Seg)
    (h : ∃ s ∈ l, s.1 = s.2) (c : ℝ) :
    l.foldl (minStepChecked p) (some c) = none := by
  induction l generalizing c with
  | nil => simp at h
  | cons s t ih =>
    by_cases hs : s.1 = s.2
    · simp only [List.foldl_cons, minStepChecked, sdtsChecked_none p s.1 s.2 hs]
      exact foldl_minStepChecked_none p t
    · obtain ⟨x, hx, hxeq⟩ := h
      rcases List.mem_cons.mp hx with rfl | hxt
      · exact absurd hxeq hs
      · simp only [List.foldl_cons, minStepChecked, sdtsChecked_some p s.1 s.2 hs]
        exact ih ⟨x, hxt, hxeq⟩ _

/-! Claim theorems. -/

/-- C1: for every point p and segment (a, b) with a not equal to b, the
absolute value of signedDistanceToSegment equals the distance from p to the
clamped projection point a + t * (b - a) with t = clamp(dot(p-a, b-a)/dot(b-a, b-a), 0, 1);
when t lies strictly between 0 and 1 the offset from the projection point is
perpendicular to the segment direction (p projects onto the line), and when t
saturates at 0 or 1 the value equals the distance to endpoint a or b. -/
theorem c1_distance_to_clamped_projection (p a b : Vec3) (h : a ≠ b) :
    |signedDistanceToSegment p a b| =
      lengthR (vsub p (vadd a (smul (tClamped p a b) (vsub b a)))) ∧
    (0 < tClamped p a b → tClamped p a b < 1 →
      dot (vsub p (projPoint p a b)) (vsub b a) = 0) ∧
    (tClamped p a b = 0 →
      |signedDistanceToSegment p a b| = lengthR (vsub p a)) ∧
    (tClamped p a b = 1 →
      |signedDistanceToSegment p a b| = lengthR (vsub p b)) := by
  refine ⟨abs_signedDistanceToSegment p a b, perp_of_interior p a b h, ?_, ?_⟩
  · intro h0
    rw [abs_signedDistanceToSegment, projPoint_of_tZero p a b h0]
  · intro h1
    rw [abs_signedDistanceToSegment, projPoint_of_tOne p a b h1]

/-- C1 witness: the hypothesis and the first conjunct evaluated at the
concrete input p = (1/2, 1, 0), a = (0, 0, 0), b = (1, 0, 0). -/
theorem c1_distance_to_clamped_projection_witness :
    (((0 : ℚ), 0, 0) : Vec3) ≠ ((1, 0, 0) : Vec3) ∧
    |signedDistanceToSegment ((1 : ℚ) / 2, 1, 0) (0, 0, 0) (1, 0, 0)| =
      lengthR (vsub ((1 : ℚ) / 2, 1, 0)
        (vadd ((0 : ℚ), 0, 0)
          (smul (tClamped ((1 : ℚ) / 2, 1, 0) (0, 0, 0) (1, 0, 0))
            (vsub ((1 : ℚ), 0, 0) (0, 0, 0))))) :=
  ⟨by norm_num [Prod.ext_iff],
    (c1_distance_to_clamped_projection ((1 : ℚ) / 2, 1, 0) (0, 0, 0) (1, 0, 0)
      (by norm_num [Prod.ext_iff])).1⟩

/-- C4 counterexample: at p = (2, 0, 0), a = (0, 0, 0), b = (1, 0, 0) the
point is collinear with the segment, the cross product vanishes, the strict
comparison dot(normal, normal) > 0 fails, and signedDistanceToSegment
returns -1, a negative value, refuting the claim that the sign factor always
evaluates to +1 and the function is never negative. -/
theorem c4_negative_value_counterexample :
    signedDistanceToSegment (2, 0, 0) (0, 0, 0) (1, 0, 0) = -1 ∧
    signedDistanceToSegment (2, 0, 0) (0, 0, 0) (1, 0, 0) < 0 := by
  have hproj : projPoint (2, 0, 0) (0, 0, 0) (1, 0, 0) = (1, 0, 0) := by
    norm_num [projPoint, tClamped, tRaw, clampG, vsub, vadd, smul, dot]
  have hsign : sdtsSign (2, 0, 0) (0, 0, 0) (1, 0, 0) = -1 := by
    norm_num [sdtsSign, cross, vsub, dot]
  have hdot : dot (vsub ((2 : ℚ), 0, 0) (1, 0, 0)) (vsub ((2 : ℚ), 0, 0) (1, 0, 0)) = 1 := by
    norm_num [vsub, dot]
  have heval : signedDistanceToSegment (2, 0, 0) (0, 0, 0) (1, 0, 0) = -1 := by
    unfold signedDistanceToSegment lengthR
    rw [hproj, hsign, hdot]
    norm_num
  exact ⟨heval, by rw [heval]; norm_num⟩

/-- C4 amended: the side-indicator factor is +1 exactly when the cross
product cross(b - a, p - a) is nonzero, in which case the returned value is
nonnegative; when p is collinear with the line through a and b the cross
product vanishes, the factor is -1, and the returned value is nonpositive
(strictly negative whenever the collinear point is off the clamped
projection).  Downstream consumers apply abs, so the aggregate is unaffected. -/
theorem c4_sign_behavior (p a b : Vec3) :
    (cross (vsub b a) (vsub p a) ≠ (0, 0, 0) →
      sdtsSign p a b = 1 ∧ 0 ≤ signedDistanceToSegment p a b) ∧
    (cross (vsub b a) (vsub p a) = (0, 0, 0) →
      sdtsSign p a b = -1 ∧ signedDistanceToSegment p a b ≤ 0) := by
  constructor
  · intro h
    refine ⟨sdtsSign_of_cross_ne p a b h, ?_⟩
    unfold signedDistanceToSegment
    rw [sdtsSign_of_cross_ne p a b h]
    have := lengthR_nonneg (vsub p (projPoint p a b))
    push_cast
    nlinarith
  · intro h
    refine ⟨sdtsSign_of_cross_eq p a b h, ?_⟩
    unfold signedDistanceToSegment
    rw [sdtsSign_of_cross_eq p a b h]
    have := lengthR_nonneg (vsub p (projPoint p a b))
    push_cast
    nlinarith

/-- C4 witness: the noncollinear branch of the amended statement evaluated at
p = (0, 1, 0), a = (0, 0, 0), b = (1, 0, 0). -/
theorem c4_sign_behavior_witness :
    cross (vsub ((1 : ℚ), 0, 0) (0, 0, 0)) (vsub ((0 : ℚ), 1, 0) (0, 0, 0)) ≠ (0, 0, 0) ∧
    (sdtsSign ((0 : ℚ), 1, 0) (0, 0, 0) (1, 0, 0) = 1 ∧
      0 ≤ signedDistanceToSegment ((0 : ℚ), 1, 0) (0, 0, 0) (1, 0, 0)) :=
  ⟨by norm_num [cross, vsub, Prod.ext_iff],
    (c4_sign_behavior ((0 : ℚ), 1, 0) (0, 0, 0) (1, 0, 0)).1
      (by norm_num [cross, vsub, Prod.ext_iff])⟩

/-- C7: with zero segments the aggregation loops never execute their bodies:
both fragment stages return their large sentinel values (1000 for the Direct
Evaluator, 10000 for the SDF baker), and even in the guarded semantics where
a division by zero poisons the result, the outputs are defined values. -/
theorem c7_zero_segments_sentinel (p : Vec3) :
    directEdgeMinDist p [] = 1000 ∧ sdfGenMinDist p [] = 10000 ∧
    directEdgeMinDistChecked p [] = some 1000 ∧
    sdfGenMinDistChecked p [] = some 10000 := by
  refine ⟨?_, ?_, ?_, ?_⟩ <;>
    simp [directEdgeMinDist, sdfGenMinDist, directEdgeMinDistChecked,
      sdfGenMinDistChecked, loopSegs]

/-- C8: when the segment count exceeds the unrolled-loop cap of 336, both
aggregations depend only on the first 336 segments: the result equals the
aggregation of the 336-segment prefix, and appending further segments past
the cap leaves the result unchanged. -/
theorem c8_iteration_cap (p : Vec3) (segs extra : List Seg)
    (h : 336 < segs.length) :
    directEdgeMinDist p segs = directEdgeMinDist p (segs.take 336) ∧
    sdfGenMinDist p segs = sdfGenMinDist p (segs.take 336) ∧
    directEdgeMinDist p (segs ++ extra) = directEdgeMinDist p segs ∧
    sdfGenMinDist p (segs ++ extra) = sdfGenMinDist p segs := by
  have htake : (segs.take 336).take 336 = segs.take 336 := by
    rw [List.take_take, min_self]
  have happ : (segs ++ extra).take 336 = segs.take 336 := by
    rw [List.take_append_eq_append_take, Nat.sub_eq_zero_of_le (le_of_lt h)]
    simp
  refine ⟨?_, ?_, ?_, ?_⟩ <;>
    simp only [directEdgeMinDist, sdfGenMinDist, loopSegs_eq_take, htake, happ]

/-- C8 witness: a 337-segment list, one beyond the cap. -/
theorem c8_iteration_cap_witness :
    336 < segsRep.length ∧
    directEdgeMinDist (0, 0, 0) segsRep =
      directEdgeMinDist (0, 0, 0) (segsRep.take 336) :=
  ⟨by unfold segsRep; rw [List.length_replicate]; norm_num,
    (c8_iteration_cap (0, 0, 0) segsRep []
      (by unfold segsRep; rw [List.length_replicate]; norm_num)).1⟩

/-- C9: for a fragment whose sampled texel is interior (blue channel zero),
the seam-repair block is skipped and the distance used for thresholding is
the raw red channel sampled at the fragment's UV. -/
theorem c9_interior_passthrough (tex : Vec2 → Vec4) (uv : Vec2)
    (h : (tex uv).b = 0) : lookupDistance tex uv = (tex uv).r := by
  unfold lookupDistance lookupEdgeData
  simp [h]

/-- C9 witness: the constant interior texture. -/
theorem c9_interior_passthrough_witness :
    (texInterior (0, 0)).b = 0 ∧
    lookupDistance texInterior (0, 0) = (texInterior (0, 0)).r :=
  ⟨by norm_num [texInterior],
    c9_interior_passthrough texInterior (0, 0) (by norm_num [texInterior])⟩

/-- Evaluation helper: the distance from the origin to the segment from the
origin to (1, 0, 0) is zero (t clamps to 0, the projection point is the
origin itself). -/
lemma sdts_origin_eval : signedDistanceToSegment (0, 0, 0) (0, 0, 0) (1, 0, 0) = 0 := by
  have hproj : projPoint (0, 0, 0) (0, 0, 0) (1, 0, 0) = (0, 0, 0) := by
    norm_num [projPoint, tClamped, tRaw, clampG, vsub, vadd, smul, dot]
  have hdot : dot (vsub ((0 : ℚ), 0, 0) (0, 0, 0)) (vsub ((0 : ℚ), 0, 0) (0, 0, 0)) = 0 := by
    norm_num [vsub, dot]
  unfold signedDistanceToSegment lengthR
  rw [hproj, hdot]
  norm_num

/-- Evaluation helper: the point (1002, 0, 0) is collinear with the segment
from the origin to (1, 0, 0); t clamps to 1, the distance to the endpoint is
1001, and the vanished cross product makes the sign factor -1. -/
lemma sdts_far_eval : signedDistanceToSegment (1002, 0, 0) (0, 0, 0) (1, 0, 0) = -1001 := by
  have hproj : projPoint (1002, 0, 0) (0, 0, 0) (1, 0, 0) = (1, 0, 0) := by
    norm_num [projPoint, tClamped, tRaw, clampG, vsub, vadd, smul, dot]
  have hsign : sdtsSign (1002, 0, 0) (0, 0, 0) (1, 0, 0) = -1 := by
    norm_num [sdtsSign, cross, vsub, dot]
  have hdot : dot (vsub ((1002 : ℚ), 0, 0) (1, 0, 0)) (vsub ((1002 : ℚ), 0, 0) (1, 0, 0)) = 1002001 := by
    norm_num [vsub, dot]
  unfold signedDistanceToSegment lengthR
  rw [hproj, hsign, hdot]
  have hsq : ((1002001 : ℚ) : ℝ) = (1001 : ℝ) ^ 2 := by norm_num
  rw [hsq, Real.sqrt_sq (by norm_num : (0 : ℝ) ≤ 1001)]
  push_cast
  ring

/-- C3 counterexample: with zero segments the Direct Evaluator aggregation
returns its sentinel 1000 while the SDF baker aggregation returns its
sentinel 10000, so the two fragment-stage aggregations are not the same
function. -/
theorem c3_zero_segments_counterexample :
    directEdgeMinDist (0, 0, 0) [] = 1000 ∧
    sdfGenMinDist (0, 0, 0) [] = 10000 ∧
    directEdgeMinDist (0, 0, 0) [] ≠ sdfGenMinDist (0, 0, 0) [] := by
  have h1 : directEdgeMinDist ((0 : ℚ), 0, 0) [] = 1000 := by
    simp [directEdgeMinDist, loopSegs]
  have h2 : sdfGenMinDist ((0 : ℚ), 0, 0) [] = 10000 := by
    simp [sdfGenMinDist, loopSegs]
  exact ⟨h1, h2, by rw [h1, h2]; norm_num⟩

/-- C3 amended: the two aggregations agree whenever some segment within the
evaluated prefix (the first 336) has absolute distance at most 1000, the
smaller of the two sentinels; otherwise they can differ, as both sentinels
and any minimum above 1000 show. -/
theorem c3_aggregations_agree (p : Vec3) (segs : List Seg)
    (h : ∃ s ∈ loopSegs segs, |signedDistanceToSegment p s.1 s.2| ≤ 1000) :
    directEdgeMinDist p segs = sdfGenMinDist p segs := by
  obtain ⟨s, hs, hle⟩ := h
  have hmem : |signedDistanceToSegment p s.1 s.2| ∈
      (loopSegs segs).map (fun s => |signedDistanceToSegment p s.1 s.2|) :=
    List.mem_map_of_mem _ hs
  have hdirect : directEdgeMinDist p segs =
      ((loopSegs segs).map (fun s => |signedDistanceToSegment p s.1 s.2|)).foldl min 1000 := by
    unfold directEdgeMinDist
    rw [List.foldl_map]
  have hgen : sdfGenMinDist p segs =
      ((loopSegs segs).map (fun s => |signedDistanceToSegment p s.1 s.2|)).foldl min 10000 := by
    unfold sdfGenMinDist
    rw [List.foldl_map]
  have e1 : ((((loopSegs segs).map
        (fun s => |signedDistanceToSegment p s.1 s.2|)).foldl min 1000 : ℝ) : WithTop ℝ) =
      listMin ((loopSegs segs).map (fun s => |signedDistanceToSegment p s.1 s.2|)) :=
    foldl_min_eq_listMin _ _ _ hmem hle
  have e2 : ((((loopSegs segs).map
        (fun s => |signedDistanceToSegment p s.1 s.2|)).foldl min 10000 : ℝ) : WithTop ℝ) =
      listMin ((loopSegs segs).map (fun s => |signedDistanceToSegment p s.1 s.2|)) :=
    foldl_min_eq_listMin _ _ _ hmem (le_trans hle (by norm_num))
  have hcoe : ((directEdgeMinDist p segs : ℝ) : WithTop ℝ) =
      ((sdfGenMinDist p segs : ℝ) : WithTop ℝ) := by
    rw [hdirect, hgen, e1, e2]
  exact_mod_cast hcoe

/-- C3 witness: a single unit segment through the origin evaluated at the
origin, where the distance is 0 and both aggregations return 0. -/
theorem c3_aggregations_agree_witness :
    (∃ s ∈ loopSegs [(((0 : ℚ), 0, 0), ((1 : ℚ), 0, 0))],
      |signedDistanceToSegment (0, 0, 0) s.1 s.2| ≤ 1000) ∧
    directEdgeMinDist (0, 0, 0) [(((0 : ℚ), 0, 0), ((1 : ℚ), 0, 0))] =
      sdfGenMinDist (0, 0, 0) [(((0 : ℚ), 0, 0), ((1 : ℚ), 0, 0))] := by
  have hex : ∃ s ∈ loopSegs [(((0 : ℚ), 0, 0), ((1 : ℚ), 0, 0))],
      |signedDistanceToSegment (0, 0, 0) s.1 s.2| ≤ 1000 :=
    ⟨(((0 : ℚ), 0, 0), ((1 : ℚ), 0, 0)), by simp [loopSegs_eq_take], by
      show |signedDistanceToSegment (0, 0, 0) (0, 0, 0) (1, 0, 0)| ≤ 1000
      rw [sdts_origin_eval]
      norm_num⟩
  exact ⟨hex, c3_aggregations_agree (0, 0, 0) _ hex⟩

/-- C5 counterexample: a single segment whose distance 1001 exceeds the
Direct Evaluator sentinel 1000; the aggregation returns the sentinel, not the
minimum of the per-segment distances, refuting the unconditional claim. -/
theorem c5_sentinel_counterexample :
    directEdgeMinDist (1002, 0, 0) [(((0 : ℚ), 0, 0), ((1 : ℚ), 0, 0))] = 1000 ∧
    listMin (distanceList (1002, 0, 0) [(((0 : ℚ), 0, 0), ((1 : ℚ), 0, 0))]) =
      ((1001 : ℝ) : WithTop ℝ) ∧
    ((directEdgeMinDist (1002, 0, 0) [(((0 : ℚ), 0, 0), ((1 : ℚ), 0, 0))] : ℝ) : WithTop ℝ) ≠
      listMin (distanceList (1002, 0, 0) [(((0 : ℚ), 0, 0), ((1 : ℚ), 0, 0))]) := by
  have habs : |signedDistanceToSegment (1002, 0, 0) (0, 0, 0) (1, 0, 0)| = 1001 := by
    rw [sdts_far_eval]
    norm_num
  have hloop : loopSegs [(((0 : ℚ), 0, 0), ((1 : ℚ), 0, 0))] =
      [(((0 : ℚ), 0, 0), ((1 : ℚ), 0, 0))] := by
    rw [loopSegs_eq_take]
    exact List.take_of_length_le (by norm_num)
  have h1 : directEdgeMinDist (1002, 0, 0) [(((0 : ℚ), 0, 0), ((1 : ℚ), 0, 0))] = 1000 := by
    unfold directEdgeMinDist
    rw [hloop]
    simp only [List.foldl_cons, List.foldl_nil]
    rw [habs]
    exact min_eq_left (by norm_num)
  have h2 : listMin (distanceList (1002, 0, 0) [(((0 : ℚ), 0, 0), ((1 : ℚ), 0, 0))]) =
      ((1001 : ℝ) : WithTop ℝ) := by
    unfold distanceList
    simp only [List.map_cons, List.map_nil]
    rw [habs, listMin_cons]
    simp [listMin]
  refine ⟨h1, h2, ?_⟩
  rw [h1, h2]
  exact_mod_cast (by norm_num : (1000 : ℝ) ≠ 1001)

/-- C5 amended: for a nonempty segment list whose length is within the loop
cap of 336 and in which some segment's absolute distance is at most the
sentinel 1000, both aggregations return exactly the minimum of the N
individual per-segment absolute distances, and the results are invariant
under permutation of the stored segments. -/
theorem c5_min_aggregation (p : Vec3) (segs : List Seg) (hne : segs ≠ [])
    (hlen : segs.length ≤ 336)
    (hex : ∃ s ∈ segs, |signedDistanceToSegment p s.1 s.2| ≤ 1000) :
    ((directEdgeMinDist p segs : ℝ) : WithTop ℝ) = listMin (distanceList p segs) ∧
    ((sdfGenMinDist p segs : ℝ) : WithTop ℝ) = listMin (distanceList p segs) ∧
    ∀ segs2, segs.Perm segs2 →
      directEdgeMinDist p segs2 = directEdgeMinDist p segs ∧
      sdfGenMinDist p segs2 = sdfGenMinDist p segs := by
  have hloop : loopSegs segs = segs := by
    rw [loopSegs_eq_take]
    exact List.take_of_length_le hlen
  obtain ⟨s, hs, hle⟩ := hex
  have hmem : |signedDistanceToSegment p s.1 s.2| ∈ distanceList p segs :=
    List.mem_map_of_mem _ hs
  have hdirect : directEdgeMinDist p segs = (distanceList p segs).foldl min 1000 := by
    unfold directEdgeMinDist distanceList
    rw [hloop, List.foldl_map]
  have hgen : sdfGenMinDist p segs = (distanceList p segs).foldl min 10000 := by
    unfold sdfGenMinDist distanceList
    rw [hloop, List.foldl_map]
  refine ⟨?_, ?_, ?_⟩
  · rw [hdirect]
    exact foldl_min_eq_listMin _ _ _ hmem hle
  · rw [hgen]
    exact foldl_min_eq_listMin _ _ _ hmem (le_trans hle (by norm_num))
  · intro segs2 hperm
    have hlen2 : segs2.length ≤ 336 := by
      rw [← hperm.length_eq]
      exact hlen
    have hloop2 : loopSegs segs2 = segs2 := by
      rw [loopSegs_eq_take]
      exact List.take_of_length_le hlen2
    have hd2 : directEdgeMinDist p segs2 = (distanceList p segs2).foldl min 1000 := by
      unfold directEdgeMinDist distanceList
      rw [hloop2, List.foldl_map]
    have hg2 : sdfGenMinDist p segs2 = (distanceList p segs2).foldl min 10000 := by
      unfold sdfGenMinDist distanceList
      rw [hloop2, List.foldl_map]
    have hpm : listMin (distanceList p segs2) = listMin (distanceList p segs) :=
      (listMin_perm (List.Perm.map _ hperm)).symm
    constructor
    · have hcoe : ((directEdgeMinDist p segs2 : ℝ) : WithTop ℝ) =
          ((directEdgeMinDist p segs : ℝ) : WithTop ℝ) := by
        rw [hd2, hdirect, coe_foldl_min, coe_foldl_min, hpm]
      exact_mod_cast hcoe
    · have hcoe : ((sdfGenMinDist p segs2 : ℝ) : WithTop ℝ) =
          ((sdfGenMinDist p segs : ℝ) : WithTop ℝ) := by
        rw [hg2, hgen, coe_foldl_min, coe_foldl_min, hpm]
      exact_mod_cast hcoe

/-- C5 witness: the amended statement applied to a single unit segment
evaluated at the origin. -/
theorem c5_min_aggregation_witness :
    ([(((0 : ℚ), 0, 0), ((1 : ℚ), 0, 0))] : List Seg) ≠ [] ∧
    ([(((0 : ℚ), 0, 0), ((1 : ℚ), 0, 0))] : List Seg).length ≤ 336 ∧
    (∃ s ∈ ([(((0 : ℚ), 0, 0), ((1 : ℚ), 0, 0))] : List Seg),
      |signedDistanceToSegment (0, 0, 0) s.1 s.2| ≤ 1000) ∧
    ((directEdgeMinDist (0, 0, 0) [(((0 : ℚ), 0, 0), ((1 : ℚ), 0, 0))] : ℝ) : WithTop ℝ) =
      listMin (distanceList (0, 0, 0) [(((0 : ℚ), 0, 0), ((1 : ℚ), 0, 0))]) := by
  have hex : ∃ s ∈ ([(((0 : ℚ), 0, 0), ((1 : ℚ), 0, 0))] : List Seg),
      |signedDistanceToSegment (0, 0, 0) s.1 s.2| ≤ 1000 :=
    ⟨(((0 : ℚ), 0, 0), ((1 : ℚ), 0, 0)), by simp, by
      show |signedDistanceToSegment (0, 0, 0) (0, 0, 0) (1, 0, 0)| ≤ 1000
      rw [sdts_origin_eval]
      norm_num⟩
  exact ⟨by simp, by norm_num,
    hex, (c5_min_aggregation (0, 0, 0) _ (by simp) (by norm_num) hex).1⟩

/-- C2 failing input: on the seam texture, the fragment at UV (1/2, 1/2) is
background (blue nonzero); the selected neighbour is the right offset with
samples 0.9 (full step) and 0.8 (quarter step).  The spec's corrected value
is the extrapolation 0.9 + (0.9 - 0.8) * 4 = 1.3, which fixDiscontinuities
computes into a local and never uses; the shader instead uses the raw
neighbour sample 0.9 as the distance, so the corrected distance is not the
extrapolation. -/
theorem c2_failing_eval :
    (texSeam (1 / 2, 1 / 2)).b ≠ 0 ∧
    lookupDistance texSeam (1 / 2, 1 / 2) = 0.9 ∧
    extrapolatedCorrection texSeam (1 / 2 + 1 / 4096, 1 / 2) (1 / 2 + 1 / 16384, 1 / 2) = 1.3 ∧
    lookupDistance texSeam (1 / 2, 1 / 2) ≠
      extrapolatedCorrection texSeam (1 / 2 + 1 / 4096, 1 / 2) (1 / 2 + 1 / 16384, 1 / 2) := by
  have h1 : lookupDistance texSeam (1 / 2, 1 / 2) = 0.9 := by
    norm_num [lookupDistance, lookupEdgeData, selectNeighbour, fixDiscontinuities,
      neighbourOffsets, texSeam, texSize, add2, smul2, Prod.ext_iff]
  have h2 : extrapolatedCorrection texSeam (1 / 2 + 1 / 4096, 1 / 2)
      (1 / 2 + 1 / 16384, 1 / 2) = 1.3 := by
    norm_num [extrapolatedCorrection, texSeam, Prod.ext_iff]
  refine ⟨by norm_num [texSeam, Prod.ext_iff], h1, h2, ?_⟩
  rw [h1, h2]
  norm_num

/-- C6 counterexample: with the edgeWidth uniform configured to 1/2, the
lookup material's smooth transition still has its midpoint value 1/2 at
distance 0.3 and takes the saturated value 1 at distance 1/2, so the center
of its threshold is the hard-coded 0.3, not the configured edgeWidth. -/
theorem c6_lookup_center_counterexample :
    lookupSmoothTransition (1 / 2) (1 / 10) (1 / 2) = 1 ∧
    lookupSmoothTransition (1 / 2) (1 / 10) 0.3 = 1 / 2 ∧
    lookupSmoothTransition (1 / 2) (1 / 10) (1 / 2) ≠ 1 / 2 := by
  refine ⟨?_, ?_, ?_⟩ <;> norm_num [lookupSmoothTransition, smoothstep, clampG]

/-- C6 amended: the Direct Evaluator material's smoothstep is centered at the
configured edgeWidth (at minDist = edgeWidth the intensity is the midpoint
value 1/2), but the lookup material's smoothstep is centered at the literal
0.3 regardless of the edgeWidth uniform, whose value cannot influence the
lookup output at all. -/
theorem c6_threshold_centers (w w2 pw aa d : ℚ) :
    (0 < pw → directEdgeIntensity w pw w = 1 / 2) ∧
    (0 < aa → lookupSmoothTransition w aa 0.3 = 1 / 2) ∧
    lookupSmoothTransition w aa d = lookupSmoothTransition w2 aa d := by
  refine ⟨?_, ?_, rfl⟩
  · intro hpw
    unfold directEdgeIntensity smoothstep
    have hdiv : (w - (w - pw)) / (w + pw - (w - pw)) = 1 / 2 := by
      have he : w + pw - (w - pw) = 2 * pw := by ring
      have hn : w - (w - pw) = pw := by ring
      rw [he, hn, div_eq_iff (ne_of_gt (by linarith : (0 : ℚ) < 2 * pw))]
      ring
    rw [hdiv]
    norm_num [clampG]
  · intro haa
    unfold lookupSmoothTransition smoothstep
    have hdiv : ((0.3 : ℚ) - (0.3 - aa)) / (0.3 + aa - (0.3 - aa)) = 1 / 2 := by
      have he : (0.3 : ℚ) + aa - (0.3 - aa) = 2 * aa := by ring
      have hn : (0.3 : ℚ) - (0.3 - aa) = aa := by ring
      rw [he, hn, div_eq_iff (ne_of_gt (by linarith : (0 : ℚ) < 2 * aa))]
      ring
    rw [hdiv]
    norm_num [clampG]

/-- C6 witness: the direct-material branch of the amended statement at
edgeWidth 0.3 with pixel footprint 1/100. -/
theorem c6_threshold_centers_witness :
    (0 : ℚ) < 1 / 100 ∧ directEdgeIntensity 0.3 (1 / 100) 0.3 = 1 / 2 :=
  ⟨by norm_num, (c6_threshold_centers 0.3 0 (1 / 100) 1 0).1 (by norm_num)⟩

/-- C10: the guarded distance is undefined exactly on degenerate segments
(a = b makes dot(b - a, b - a) zero, so t divides zero by zero), the
undefined value propagates through the aggregation whenever a degenerate
segment lies within the evaluated prefix, and when every evaluated segment
satisfies a not equal to b both guarded aggregations are defined and agree
with the regular ones, so totality of the distance function requires that
precondition. -/
theorem c10_degenerate_segment_totality (p a b : Vec3) (segs : List Seg) :
    (a = b → signedDistanceToSegmentChecked p a b = none) ∧
    (a ≠ b → signedDistanceToSegmentChecked p a b =
      some (signedDistanceToSegment p a b)) ∧
    ((∃ s ∈ loopSegs segs, s.1 = s.2) →
      directEdgeMinDistChecked p segs = none ∧
      sdfGenMinDistChecked p segs = none) ∧
    ((∀ s ∈ loopSegs segs, s.1 ≠ s.2) →
      directEdgeMinDistChecked p segs = some (directEdgeMinDist p segs) ∧
      sdfGenMinDistChecked p segs = some (sdfGenMinDist p segs)) := by
  refine ⟨sdtsChecked_none p a b, sdtsChecked_some p a b, ?_, ?_⟩
  · intro h
    exact ⟨foldl_minStepChecked_degenerate p _ h 1000,
      foldl_minStepChecked_degenerate p _ h 10000⟩
  · intro h
    exact ⟨foldl_minStepChecked_ok p _ h 1000,
      foldl_minStepChecked_ok p _ h 10000⟩

/-- C10 witness: a single degenerate segment poisons both guarded
aggregations. -/
theorem c10_degenerate_segment_totality_witness :
    (∃ s ∈ loopSegs [(((1 : ℚ), 2, 3), ((1 : ℚ), 2, 3))], s.1 = s.2) ∧
    directEdgeMinDistChecked (0, 0, 0) [(((1 : ℚ), 2, 3), ((1 : ℚ), 2, 3))] = none ∧
    sdfGenMinDistChecked (0, 0, 0) [(((1 : ℚ), 2, 3), ((1 : ℚ), 2, 3))] = none := by
  have hex : ∃ s ∈ loopSegs [(((1 : ℚ), 2, 3), ((1 : ℚ), 2, 3))], s.1 = s.2 :=
    ⟨(((1 : ℚ), 2, 3), ((1 : ℚ), 2, 3)), by simp [loopSegs_eq_take], rfl⟩
  exact ⟨hex,
    (c10_degenerate_segment_totality (0, 0, 0) (0, 0, 0) (0, 0, 0) _).2.2.1 hex⟩
